import Mathlib

/-!
Verification of the disk-cleaner core (src/analyzer.rs, src/platform.rs,
src/file_manager.rs) against its natural-language specification.

The Rust code is shallowly embedded: filesystem trees become an inductive
type, each fallible syscall becomes an explicit observation field, u64
arithmetic becomes Nat with an explicit clamp at 2^64 - 1, and fallible
functions return Except. Function names follow the source.
-/

namespace DiskCleaner

/-! ## u64 saturating arithmetic (analyzer.rs line 159: total_size.saturating_add) -/

def U64_MAX : Nat := 2 ^ 64 - 1

/-- u64::saturating_add modelled on Nat: clamps at u64::MAX instead of wrapping. -/
def saturatingAdd (a b : Nat) : Nat := min (a + b) U64_MAX

/-! ## humansize::format_size with the DECIMAL options (analyzer.rs line 93)

Models the humansize crate (a dependency, not repository code): a
1000-based unit scale, an integer rendering for values below 1 kB or with a
zero fractional part, otherwise two decimal places.  The repository's own
unit test pins this behaviour: 1024 formats as "1.02 kB"
(analyzer.rs line 333). -/

def sizeUnits : List String := ["B", "kB", "MB", "GB", "TB", "PB", "EB"]

/-- Division-by-1000 steps with a fuel bound. -/
def scaleOfAux : Nat → Nat → Nat
  | 0, _ => 0
  | f + 1, n => if n < 1000 then 0 else scaleOfAux f (n / 1000) + 1

/-- Number of divisions by 1000 until the value drops below 1000: the unit
scale, capped (as humansize caps it) at the last unit of the list, EB. -/
def scaleOf (n : Nat) : Nat := scaleOfAux 6 n

/-- Two-digit zero-padded rendering of a value below 100. -/
def pad2 (k : Nat) : String :=
  if k < 10 then "0" ++ toString k else toString k

/-- Round num / den to the nearest integer, ties to even. -/
def roundHalfEven (num den : Nat) : Nat :=
  let q := num / den
  let r := num % den
  if 2 * r < den then q
  else if den < 2 * r then q + 1
  else if q % 2 = 0 then q else q + 1

def format_size (n : Nat) : String :=
  if n < 1000 then toString n ++ " B"
  else
    let s := scaleOf n
    let d := 1000 ^ s
    let u := sizeUnits.getD s "EB"
    if d ∣ n then toString (n / d) ++ " " ++ u
    else
      let h := roundHalfEven (n * 100) d
      toString (h / 100) ++ "." ++ pad2 (h % 100) ++ " " ++ u

/-! ## DirectoryEntry (analyzer.rs lines 57-101) -/

structure DirectoryEntry where
  path : String
  size_bytes : Nat
  size_human : String
  is_directory : Bool
deriving DecidableEq, Repr

/-- DirectoryEntry::new: the human-readable size is derived from size_bytes
at construction. -/
def DirectoryEntry.new (path : String) (size_bytes : Nat) (is_directory : Bool) :
    DirectoryEntry :=
  ⟨path, size_bytes, format_size size_bytes, is_directory⟩

/-! ## Filesystem model for the analyzer

A node is a regular file (with the result of reading its metadata: the
walk skips a file whose metadata cannot be read, analyzer.rs line 158), a
directory with named children in listing order, or a symbolic link (never
followed: follow_links(false), analyzer.rs line 153). -/

inductive FsNode where
  | file (metaRes : Except String Nat)
  | dir (children : List (String × FsNode))
  | symlink
deriving Repr

/-- The lengths of the regular files yielded by
WalkDir::new(root).follow_links(false).max_depth(d), in walk order.
walkdir depth 0 is the root itself; its direct children are at depth 1. -/
def walkFiles : Nat → FsNode → List Nat
  | _, FsNode.file (Except.ok n) => [n]
  | _, FsNode.file (Except.error _) => []
  | _, FsNode.symlink => []
  | 0, FsNode.dir _ => []
  | d + 1, FsNode.dir cs => cs.flatMap (fun c => walkFiles d c.2)

/-- The observations calculate_size makes of its path argument:
path.exists(), path.is_file(), path.metadata().map(len), and the tree
WalkDir traverses when the path is a directory. -/
structure PathProbe where
  ex : Bool
  isFile : Bool
  metaRes : Except String Nat
  node : FsNode

/-- The consistent single-snapshot probe of a node: a file whose metadata
read fails does not exist() (Path::exists is fs::metadata(..).is_ok()). -/
def probeOf : FsNode → PathProbe
  | FsNode.file (Except.ok n) => ⟨true, true, Except.ok n, FsNode.file (Except.ok n)⟩
  | FsNode.file (Except.error e) => ⟨false, false, Except.error e, FsNode.file (Except.error e)⟩
  | FsNode.dir cs => ⟨true, false, Except.ok 0, FsNode.dir cs⟩
  | FsNode.symlink => ⟨true, false, Except.ok 0, FsNode.symlink⟩

/-- DiskAnalyzer::calculate_size (analyzer.rs lines 139-174): 0 for a
missing path, the metadata length for a file (propagating a metadata
error), otherwise a walk accumulating file lengths with saturating_add. -/
def calculate_size (max_depth : Nat) (p : PathProbe) : Except String Nat :=
  if p.ex = false then Except.ok 0
  else if p.isFile then
    match p.metaRes with
    | Except.ok n => Except.ok n
    | Except.error e => Except.error e
  else Except.ok ((walkFiles max_depth p.node).foldl saturatingAdd 0)

/-- entry_path.is_dir() for a modelled node. -/
def isDirNode : FsNode → Bool
  | FsNode.dir _ => true
  | _ => false

/-- path.exists() for the analysis root. -/
def rootExists : Option FsNode → Bool
  | none => false
  | some (FsNode.file (Except.error _)) => false
  | some _ => true

/-- The descending-by-size comparison analyze_directory sorts with
(analyzer.rs line 225: b.size_bytes.cmp(&a.size_bytes)). -/
def entryGE (a b : DirectoryEntry) : Prop := b.size_bytes ≤ a.size_bytes

instance : DecidableRel entryGE := fun a b => Nat.decLe b.size_bytes a.size_bytes

instance : IsTotal DirectoryEntry entryGE :=
  ⟨fun a b => Nat.le_total b.size_bytes a.size_bytes⟩

instance : IsTrans DirectoryEntry entryGE :=
  ⟨fun _ _ _ hab hbc => Nat.le_trans hbc hab⟩

/-- entries.sort_by(|a, b| b.size_bytes.cmp(&a.size_bytes)): Rust's sort_by
is a stable sort, embedded as a stable insertion sort under entryGE. -/
def sortEntries (l : List DirectoryEntry) : List DirectoryEntry :=
  List.insertionSort entryGE l

/-- One collected entry per child of the analysis root, in listing order
(analyzer.rs lines 198-222): a directory child is sized with depth
max_depth - 1 (saturating), a file child with depth 1, and a size
computation error is replaced by 0 (unwrap_or(0)). -/
def childEntries (max_depth : Nat) (rootPath : String)
    (cs : List (String × FsNode)) : List DirectoryEntry :=
  cs.map fun c =>
    let is_directory := isDirNode c.2
    let d := if is_directory then max_depth - 1 else 1
    let size :=
      match calculate_size d (probeOf c.2) with
      | Except.ok n => n
      | Except.error _ => 0
    DirectoryEntry.new (rootPath ++ "/" ++ c.1) size is_directory

/-- DiskAnalyzer::analyze_directory (analyzer.rs lines 177-228). -/
def analyze_directory (max_depth : Nat) (rootPath : String) (root : Option FsNode) :
    Except String (List DirectoryEntry) :=
  if rootExists root = false then
    Except.error ("Directory '" ++ rootPath ++ "' does not exist")
  else
    match root with
    | some (FsNode.dir cs) =>
        Except.ok (sortEntries (childEntries max_depth rootPath cs))
    | _ => Except.error ("'" ++ rootPath ++ "' is not a directory")

/-- DiskAnalyzer::filter_entries (analyzer.rs lines 231-247). -/
def filter_entries (entries : List DirectoryEntry) (min_size : Option Nat) :
    List DirectoryEntry :=
  entries.filter fun entry =>
    match min_size with
    | some m => decide (m ≤ entry.size_bytes)
    | none => true

/-! ## PlatformUtils (platform.rs)

can_delete and safe_delete are compiled once per target platform; the unix
and windows cfg blocks are embedded as separate functions.  A path's state
holds the observations the functions make: path.exists(), the
fs::metadata() result (the owner mode bits on unix, the file attributes on
windows; none models a metadata read error), and the outcome of the OS
removal call.  The returned action list records which OS mutation calls
were attempted, so that "without attempting the removal" is expressible. -/

inductive OsAction where
  | clearReadonly
  | removeFile
  | removeDir
deriving DecidableEq, Repr

structure UnixPath where
  ex : Bool
  mode : Option Nat
  removeErr : Option String
deriving DecidableEq, Repr

/-- PlatformUtils::can_delete, cfg(unix) branch (platform.rs lines 77-106):
false for a missing path, otherwise the owner-write bit 0o200 of the mode. -/
def can_delete_unix (p : UnixPath) : Bool :=
  if p.ex = false then false
  else
    match p.mode with
    | some m => decide ((m &&& 0o200) ≠ 0)
    | none => false

/-- PlatformUtils::safe_delete as compiled for unix (platform.rs lines
122-166; the cfg(windows) attribute block is compiled out). -/
def safe_delete_unix (path : String) (p : UnixPath) (is_directory : Bool) :
    List OsAction × Except String Unit :=
  if p.ex = false then
    ([], Except.error ("Path '" ++ path ++ "' does not exist"))
  else if can_delete_unix p = false then
    ([], Except.error ("Insufficient permissions to delete '" ++ path ++ "'"))
  else if is_directory then
    ([OsAction.removeDir],
      match p.removeErr with
      | none => Except.ok ()
      | some e => Except.error ("Failed to delete directory '" ++ path ++ "': " ++ e))
  else
    ([OsAction.removeFile],
      match p.removeErr with
      | none => Except.ok ()
      | some e => Except.error ("Failed to delete file '" ++ path ++ "': " ++ e))

structure WinPath where
  ex : Bool
  attrs : Option Nat
  removeErr : Option String
deriving DecidableEq, Repr

/-- PlatformUtils::can_delete, cfg(windows) branch (platform.rs lines
77-94): false for a missing path, otherwise the absence of the
FILE_ATTRIBUTE_READONLY bit 0x1. -/
def can_delete_windows (p : WinPath) : Bool :=
  if p.ex = false then false
  else
    match p.attrs with
    | some a => decide ((a &&& 0x1) = 0)
    | none => false

/-- PlatformUtils::safe_delete as compiled for windows (platform.rs lines
122-166, including the read-only-attribute clearing block at lines
138-152). -/
def safe_delete_windows (path : String) (p : WinPath) (is_directory : Bool) :
    List OsAction × Except String Unit :=
  if p.ex = false then
    ([], Except.error ("Path '" ++ path ++ "' does not exist"))
  else if can_delete_windows p = false then
    ([], Except.error ("Insufficient permissions to delete '" ++ path ++ "'"))
  else
    let clearActs :=
      match p.attrs with
      | some a => if (a &&& 0x1) ≠ 0 then [OsAction.clearReadonly] else []
      | none => []
    if is_directory then
      (clearActs ++ [OsAction.removeDir],
        match p.removeErr with
        | none => Except.ok ()
        | some e => Except.error ("Failed to delete directory '" ++ path ++ "': " ++ e))
    else
      (clearActs ++ [OsAction.removeFile],
        match p.removeErr with
        | none => Except.ok ()
        | some e => Except.error ("Failed to delete file '" ++ path ++ "': " ++ e))

/-! ## FileManager::delete_entries (file_manager.rs lines 178-209)

The filesystem the deletions run against maps paths to unix path states;
a path not in the map does not exist.  A successful removal marks the
path nonexistent for the remaining iterations.  safe_delete's errors are
anyhow strings (never io::Error values), so the downcast_ref branch of
delete_entries never fires and the reported reason is the error's own
string. -/

abbrev Fs := List (String × UnixPath)

def Fs.view (fs : Fs) (path : String) : UnixPath :=
  (fs.lookup path).getD ⟨false, none, none⟩

def Fs.removePath (fs : Fs) (path : String) : Fs :=
  fs.map fun kv => if kv.1 = path then (kv.1, ⟨false, none, none⟩) else kv

/-- The result of one loop iteration's safe_delete call for an entry. -/
def entryOutcome (fs : Fs) (e : DirectoryEntry) : Except String Unit :=
  (safe_delete_unix e.path (Fs.view fs e.path) e.is_directory).2

/-- The failed-list line for an entry: "{path} ({reason})". -/
def failLine (e : DirectoryEntry) (msg : String) : String :=
  e.path ++ " (" ++ msg ++ ")"

/-- The loop of FileManager::delete_entries: each entry is attempted in
order; a success pushes the path onto the deleted list, a failure pushes
the path with its reason onto the failed list, and iteration continues
either way. -/
def delete_entries_loop (fs : Fs) : List DirectoryEntry → List String × List String
  | [] => ([], [])
  | e :: es =>
    match (safe_delete_unix e.path (Fs.view fs e.path) e.is_directory).2 with
    | Except.ok _ =>
      let rest := delete_entries_loop (Fs.removePath fs e.path) es
      (e.path :: rest.1, rest.2)
    | Except.error msg =>
      let rest := delete_entries_loop fs es
      (rest.1, failLine e msg :: rest.2)

/-- FileManager::delete_entries: the loop's accumulators wrapped in Ok
(the body propagates no error of its own). -/
def delete_entries (fs : Fs) (entries : List DirectoryEntry) :
    Except String (List String × List String) :=
  Except.ok (delete_entries_loop fs entries)

/-! ## Specification-side definition for claim C1 -/

/-- Written from the spec's words for C1, to compare with the analyzer:
"the sum of the sizes of the regular files that are that subdirectory's
direct children". -/
def specDirectChildFileSum : FsNode → Nat
  | FsNode.dir cs =>
    (cs.map fun c =>
      match c.2 with
      | FsNode.file (Except.ok n) => n
      | _ => 0).sum
  | _ => 0

/-! ## Helper lemmas -/

theorem min_add_min_right (s c : Nat) :
    min (min s U64_MAX + c) U64_MAX = min (s + c) U64_MAX := by
  rcases Nat.le_total s U64_MAX with h | h
  · rw [Nat.min_eq_left h]
  · rw [Nat.min_eq_right h]
    rcases Nat.le_total (s + c) U64_MAX with h2 | h2 <;> omega

theorem foldl_saturatingAdd (l : List Nat) :
    ∀ a : Nat, a ≤ U64_MAX → l.foldl saturatingAdd a = min (a + l.sum) U64_MAX := by
  induction l with
  | nil => intro a ha; simp [Nat.min_eq_left ha]
  | cons x l ih =>
    intro a ha
    have h1 : saturatingAdd a x ≤ U64_MAX := Nat.min_le_right _ _
    calc (x :: l).foldl saturatingAdd a = l.foldl saturatingAdd (saturatingAdd a x) := rfl
      _ = min (saturatingAdd a x + l.sum) U64_MAX := ih _ h1
      _ = min (a + x + l.sum) U64_MAX := min_add_min_right _ _
      _ = min (a + (x :: l).sum) U64_MAX := by simp [Nat.add_assoc]

theorem foldl_saturatingAdd_zero (l : List Nat) :
    l.foldl saturatingAdd 0 = min l.sum U64_MAX := by
  simpa using foldl_saturatingAdd l 0 (by simp [U64_MAX])

theorem filter_orderedInsert_pos (x : DirectoryEntry) (l : List DirectoryEntry) (s : Nat)
    (hx : x.size_bytes = s) :
    (List.orderedInsert entryGE x l).filter (fun e => e.size_bytes == s)
      = x :: l.filter (fun e => e.size_bytes == s) := by
  induction l with
  | nil => simp [List.orderedInsert, hx]
  | cons y ys ih =>
    by_cases h : entryGE x y
    · simp [List.orderedInsert, h, hx]
    · have hy : ¬ (y.size_bytes == s) = true := by
        have : x.size_bytes < y.size_bytes := Nat.lt_of_not_le h
        simp only [beq_iff_eq]
        omega
      simp only [List.orderedInsert, if_neg h, List.filter_cons]
      simp [hy, ih]

theorem filter_orderedInsert_neg (x : DirectoryEntry) (l : List DirectoryEntry) (s : Nat)
    (hx : x.size_bytes ≠ s) :
    (List.orderedInsert entryGE x l).filter (fun e => e.size_bytes == s)
      = l.filter (fun e => e.size_bytes == s) := by
  induction l with
  | nil => simp [List.orderedInsert, hx]
  | cons y ys ih =>
    by_cases h : entryGE x y
    · simp [List.orderedInsert, h, hx]
    · simp only [List.orderedInsert, if_neg h, List.filter_cons]
      rw [ih]

theorem filter_sortEntries (l : List DirectoryEntry) (s : Nat) :
    (sortEntries l).filter (fun e => e.size_bytes == s)
      = l.filter (fun e => e.size_bytes == s) := by
  induction l with
  | nil => rfl
  | cons x xs ih =>
    simp only [sortEntries] at ih ⊢
    rw [List.insertionSort]
    by_cases hx : x.size_bytes = s
    · rw [filter_orderedInsert_pos x _ s hx, ih, List.filter_cons,
        if_pos (by simpa using hx)]
    · rw [filter_orderedInsert_neg x _ s hx, ih, List.filter_cons,
        if_neg (by simpa using hx)]

theorem sum_walkFiles_one (cs : List (String × FsNode)) :
    (walkFiles 1 (FsNode.dir cs)).sum = specDirectChildFileSum (FsNode.dir cs) := by
  induction cs with
  | nil => rfl
  | cons c cs ih =>
    have hstep : walkFiles 1 (FsNode.dir (c :: cs))
        = walkFiles 0 c.2 ++ walkFiles 1 (FsNode.dir cs) := by
      simp [walkFiles]
    rw [hstep, List.sum_append, ih]
    rcases c with ⟨name, node⟩
    cases node with
    | file m => cases m <;> simp [walkFiles, specDirectChildFileSum]
    | dir cc => simp [walkFiles, specDirectChildFileSum]
    | symlink => simp [walkFiles, specDirectChildFileSum]

theorem delete_loop_length (es : List DirectoryEntry) :
    ∀ fs : Fs, (delete_entries_loop fs es).1.length + (delete_entries_loop fs es).2.length
      = es.length := by
  induction es with
  | nil => intro fs; rfl
  | cons e es ih =>
    intro fs
    cases h : (safe_delete_unix e.path (Fs.view fs e.path) e.is_directory).2 with
    | ok u => simp [delete_entries_loop, h]; have := ih (Fs.removePath fs e.path); omega
    | error msg => simp [delete_entries_loop, h, failLine]; have := ih fs; omega

theorem delete_loop_deleted_sublist (es : List DirectoryEntry) :
    ∀ fs : Fs, List.Sublist (delete_entries_loop fs es).1 (es.map (fun e => e.path)) := by
  induction es with
  | nil => intro fs; simp [delete_entries_loop]
  | cons e es ih =>
    intro fs
    cases h : (safe_delete_unix e.path (Fs.view fs e.path) e.is_directory).2 with
    | ok u =>
      simp only [delete_entries_loop, h, List.map_cons]
      exact List.Sublist.cons₂ _ (ih (Fs.removePath fs e.path))
    | error msg =>
      simp only [delete_entries_loop, h, List.map_cons]
      exact List.Sublist.cons _ (ih fs)

theorem delete_loop_failed_from_entries (es : List DirectoryEntry) :
    ∀ fs : Fs, ∀ s ∈ (delete_entries_loop fs es).2, ∃ e ∈ es, ∃ msg, s = failLine e msg := by
  induction es with
  | nil => intro fs s hs; simp [delete_entries_loop] at hs
  | cons e es ih =>
    intro fs s hs
    cases h : (safe_delete_unix e.path (Fs.view fs e.path) e.is_directory).2 with
    | ok u =>
      simp only [delete_entries_loop, h] at hs
      obtain ⟨e2, he2, msg, hmsg⟩ := ih (Fs.removePath fs e.path) s hs
      exact ⟨e2, List.mem_cons_of_mem _ he2, msg, hmsg⟩
    | error msg =>
      simp only [delete_entries_loop, h, List.mem_cons] at hs
      rcases hs with hs | hs
      · exact ⟨e, List.mem_cons_self _ _, msg, hs⟩
      · obtain ⟨e2, he2, msg2, hmsg⟩ := ih fs s hs
        exact ⟨e2, List.mem_cons_of_mem _ he2, msg2, hmsg⟩

/-- Entries of a max_depth = 1 analysis in terms of the children list:
useful bridge from analyze_directory's Except result to its payload. -/
theorem analyze_directory_ok (max_depth : Nat) (rootPath : String)
    (cs : List (String × FsNode)) (res : List DirectoryEntry)
    (h : analyze_directory max_depth rootPath (some (FsNode.dir cs)) = Except.ok res) :
    res = sortEntries (childEntries max_depth rootPath cs) := by
  simp [analyze_directory, rootExists] at h
  exact h.symm

/-- Claim C1 (counterexample): with max_depth = 1, a subdirectory child
containing a single 500-byte regular file is reported with size_bytes = 0,
not 500 (the sum of the sizes of its direct regular-file children): a
directory child is sized with walk budget max_depth - 1 = 0, which yields
no files. -/
theorem claim_C1_cex :
    analyze_directory 1 "r"
        (some (FsNode.dir [("sub", FsNode.dir [("f", FsNode.file (Except.ok 500))])]))
      = Except.ok [DirectoryEntry.new "r/sub" 0 true]
    ∧ specDirectChildFileSum (FsNode.dir [("f", FsNode.file (Except.ok 500))]) = 500
    ∧ (0 : Nat) ≠ 500 := by
  refine ⟨?_, by decide, by decide⟩
  rfl

/-- Claim C1 (amended): for an analysis with max_depth = 1 every immediate
subdirectory child of the root is reported with size_bytes = 0 (the child
walk runs with budget max_depth - 1 = 0, so no level of descent into the
subdirectory is counted); the sum of the sizes of the subdirectory's direct
regular-file children (saturating at u64::MAX) is what the entry reports at
max_depth = 2. -/
theorem claim_C1 (rootPath : String) (cs : List (String × FsNode))
    (res res2 : List DirectoryEntry) (e : DirectoryEntry) (name : String) (sub : FsNode) :
    (analyze_directory 1 rootPath (some (FsNode.dir cs)) = Except.ok res →
      e ∈ res → e.is_directory = true → e.size_bytes = 0)
    ∧ (analyze_directory 2 rootPath (some (FsNode.dir cs)) = Except.ok res2 →
        (name, sub) ∈ cs → isDirNode sub = true →
        DirectoryEntry.new (rootPath ++ "/" ++ name)
          (min (specDirectChildFileSum sub) U64_MAX) true ∈ res2) := by
  constructor
  · intro h hmem hdir
    rw [analyze_directory_ok 1 rootPath cs res h] at hmem
    rw [sortEntries, List.mem_insertionSort] at hmem
    unfold childEntries at hmem
    rw [List.mem_map] at hmem
    obtain ⟨c, hc, he⟩ := hmem
    cases hn : c.2 with
    | dir cc =>
      rw [hn] at he
      simp only [isDirNode, probeOf, calculate_size, walkFiles] at he
      rw [← he]
      rfl
    | file m =>
      rw [hn] at he
      rw [← he] at hdir
      simp [isDirNode, DirectoryEntry.new] at hdir
    | symlink =>
      rw [hn] at he
      rw [← he] at hdir
      simp [isDirNode, DirectoryEntry.new] at hdir
  · intro h hmem hdir
    rw [analyze_directory_ok 2 rootPath cs res2 h]
    rw [sortEntries, List.mem_insertionSort]
    unfold childEntries
    rw [List.mem_map]
    refine ⟨(name, sub), hmem, ?_⟩
    cases sub with
    | dir cc =>
      simp only [isDirNode, probeOf, calculate_size, if_true]
      have hw : (walkFiles (2 - 1) (FsNode.dir cc)).foldl saturatingAdd 0
          = min (specDirectChildFileSum (FsNode.dir cc)) U64_MAX := by
        rw [foldl_saturatingAdd_zero, sum_walkFiles_one]
      simp [hw]
    | file m => simp [isDirNode] at hdir
    | symlink => simp [isDirNode] at hdir

/-- Claim C1 (witness): the amended statement at a concrete tree — the
500-byte nested file is invisible at depth 1 and counted at depth 2. -/
theorem claim_C1_witness :
    (DirectoryEntry.new "r/sub" 0 true).size_bytes = 0
    ∧ DirectoryEntry.new "r/sub" (min 500 U64_MAX) true
        ∈ [DirectoryEntry.new "r/sub" (min 500 U64_MAX) true] := by
  constructor
  · exact (claim_C1 "r" [("sub", FsNode.dir [("f", FsNode.file (Except.ok 500))])]
      [DirectoryEntry.new "r/sub" 0 true] [] (DirectoryEntry.new "r/sub" 0 true)
      "sub" (FsNode.dir [("f", FsNode.file (Except.ok 500))])).1
      rfl (List.mem_singleton.mpr rfl) rfl
  · exact (claim_C1 "r" [("sub", FsNode.dir [("f", FsNode.file (Except.ok 500))])]
      [] [DirectoryEntry.new "r/sub" (min 500 U64_MAX) true]
      (DirectoryEntry.new "r/sub" 0 true)
      "sub" (FsNode.dir [("f", FsNode.file (Except.ok 500))])).2
      rfl (List.mem_singleton.mpr rfl) rfl

/-- Claim C3: the analysis result is sorted descending by size_bytes
(every adjacent pair i, i+1 satisfies entries[i].size_bytes >=
entries[i+1].size_bytes), and entries of equal size_bytes keep the order
in which the children were discovered during the directory listing
(childEntries preserves listing order and the sort is stable), so the
ordering is deterministic for a fixed directory snapshot. -/
theorem claim_C3 (max_depth : Nat) (rootPath : String) (cs : List (String × FsNode))
    (res : List DirectoryEntry)
    (h : analyze_directory max_depth rootPath (some (FsNode.dir cs)) = Except.ok res) :
    (∀ i : Nat, (hi : i + 1 < res.length) →
      (res.get ⟨i + 1, hi⟩).size_bytes ≤ (res.get ⟨i, Nat.lt_of_succ_lt hi⟩).size_bytes)
    ∧ (∀ s : Nat, res.filter (fun e => e.size_bytes == s)
        = (childEntries max_depth rootPath cs).filter (fun e => e.size_bytes == s)) := by
  rw [analyze_directory_ok max_depth rootPath cs res h]
  constructor
  · intro i hi
    have hs : List.Sorted entryGE (sortEntries (childEntries max_depth rootPath cs)) :=
      List.sorted_insertionSort entryGE _
    exact hs.rel_get_of_lt (Fin.mk_lt_mk.mpr (Nat.lt_succ_self i))
  · intro s
    exact filter_sortEntries _ s

/-- Claim C3 (witness): the sortedness and stability of a concrete
analysis of a directory with two equal-sized files around a larger one. -/
theorem claim_C3_witness :
    ((Except.ok [DirectoryEntry.new "r/b" 9 false, DirectoryEntry.new "r/a" 5 false,
        DirectoryEntry.new "r/c" 5 false] : Except String (List DirectoryEntry)).isOk = true)
    ∧ (DirectoryEntry.new "r/a" 5 false).size_bytes
        ≤ (DirectoryEntry.new "r/b" 9 false).size_bytes := by
  have h : analyze_directory 1 "r"
      (some (FsNode.dir [("a", FsNode.file (Except.ok 5)), ("b", FsNode.file (Except.ok 9)),
        ("c", FsNode.file (Except.ok 5))]))
      = Except.ok [DirectoryEntry.new "r/b" 9 false, DirectoryEntry.new "r/a" 5 false,
        DirectoryEntry.new "r/c" 5 false] := rfl
  refine ⟨rfl, ?_⟩
  exact (claim_C3 1 "r"
    [("a", FsNode.file (Except.ok 5)), ("b", FsNode.file (Except.ok 9)),
      ("c", FsNode.file (Except.ok 5))]
    [DirectoryEntry.new "r/b" 9 false, DirectoryEntry.new "r/a" 5 false,
      DirectoryEntry.new "r/c" 5 false] h).1 0 (by decide)

/-- Claim C6: filter_entries returns exactly the subsequence of entries
with size_bytes >= min_size (List.filter of that predicate, a sublist of
the input, so relative order is preserved) and is the identity when no
threshold is given; it is a pure function of its arguments. -/
theorem claim_C6 (es : List DirectoryEntry) (m : Nat) (ms : Option Nat) :
    filter_entries es none = es
    ∧ filter_entries es (some m) = es.filter (fun e => decide (m ≤ e.size_bytes))
    ∧ List.Sublist (filter_entries es ms) es := by
  refine ⟨?_, rfl, List.filter_sublist es⟩
  simp [filter_entries]

/-- Claim C7: calculate_size returns Ok(0) for a path that does not exist;
for a regular file it returns exactly the metadata result (the length on
success, the metadata error on failure), and an error result can only
arise that way: from a file whose metadata could not be read. -/
theorem claim_C7 (d : Nat) (p : PathProbe) (e : String) :
    (p.ex = false → calculate_size d p = Except.ok 0)
    ∧ (p.ex = true → p.isFile = true → calculate_size d p = p.metaRes)
    ∧ (calculate_size d p = Except.error e →
        p.ex = true ∧ p.isFile = true ∧ p.metaRes = Except.error e) := by
  refine ⟨fun h => by simp [calculate_size, h], fun h1 h2 => ?_, fun h => ?_⟩
  · cases hm : p.metaRes <;> simp [calculate_size, h1, h2, hm]
  · by_cases h1 : p.ex = false
    · simp [calculate_size, h1] at h
    · rw [Bool.not_eq_false] at h1
      by_cases h2 : p.isFile = true
      · cases hm : p.metaRes with
        | ok n => simp [calculate_size, h1, h2, hm] at h
        | error e2 =>
          simp only [calculate_size, h1, h2, hm] at h
          have he : e2 = e := by simpa using h
          exact ⟨h1, h2, by rw [he]⟩
      · rw [Bool.not_eq_true] at h2
        simp [calculate_size, h1, h2] at h

/-- Claim C7 (witness): a missing path sizes to 0; an accessible 1000-byte
file sizes to its length; a file whose metadata read fails at sizing time
propagates the error. -/
theorem claim_C7_witness :
    calculate_size 3 ⟨false, false, Except.ok 0, FsNode.symlink⟩ = Except.ok 0
    ∧ calculate_size 3 ⟨true, true, Except.ok 1000, FsNode.file (Except.ok 1000)⟩
        = Except.ok 1000
    ∧ calculate_size 3 ⟨true, true, Except.error "io", FsNode.file (Except.error "io")⟩
        = Except.error "io" :=
  ⟨(claim_C7 3 ⟨false, false, Except.ok 0, FsNode.symlink⟩ "io").1 rfl,
   (claim_C7 3 ⟨true, true, Except.ok 1000, FsNode.file (Except.ok 1000)⟩ "io").2.1 rfl rfl,
   (claim_C7 3 ⟨true, true, Except.error "io", FsNode.file (Except.error "io")⟩ "io").2.1
     rfl rfl⟩

/-- Claim C8: size_human is derived deterministically from size_bytes at
construction by the decimal (1000-based) formatter; 1024 bytes renders as
"1.02 kB" (not a 1024-based rendering), values below 1000 render in bytes,
and exact powers of 1000 step to the next unit. -/
theorem claim_C8 (p : String) (n : Nat) (d : Bool) :
    (DirectoryEntry.new p n d).size_human = format_size n
    ∧ format_size 1024 = "1.02 kB"
    ∧ format_size 999 = "999 B"
    ∧ format_size 1000 = "1 kB"
    ∧ format_size (1000 * 1000) = "1 MB" := by
  refine ⟨rfl, ?_, ?_, ?_, ?_⟩ <;> rfl

/-- Claim C9: in the directory branch of calculate_size the walked file
lengths are accumulated with saturating addition: the result is the sum
clamped at u64::MAX, and whenever the true sum exceeds u64::MAX the
reported size is exactly u64::MAX (no wrap-around). -/
theorem claim_C9 (d : Nat) (p : PathProbe) (hex : p.ex = true) (hf : p.isFile = false) :
    calculate_size d p = Except.ok (min (walkFiles d p.node).sum U64_MAX)
    ∧ (U64_MAX < (walkFiles d p.node).sum → calculate_size d p = Except.ok U64_MAX) := by
  have h : calculate_size d p = Except.ok ((walkFiles d p.node).foldl saturatingAdd 0) := by
    simp [calculate_size, hex, hf]
  rw [h, foldl_saturatingAdd_zero]
  exact ⟨rfl, fun hlt => by rw [Nat.min_eq_right (Nat.le_of_lt hlt)]⟩

/-- Claim C9 (witness): a directory holding files of u64::MAX and 5 bytes
reports u64::MAX — the clamped value, not the wrapped value 4. -/
theorem claim_C9_witness :
    calculate_size 1
        ⟨true, false, Except.ok 0,
          FsNode.dir [("a", FsNode.file (Except.ok U64_MAX)),
            ("b", FsNode.file (Except.ok 5))]⟩
      = Except.ok U64_MAX
    ∧ (U64_MAX + 5) % 2 ^ 64 = 4
    ∧ U64_MAX ≠ 4 := by
  refine ⟨?_, by decide, by decide⟩
  exact (claim_C9 1
    ⟨true, false, Except.ok 0,
      FsNode.dir [("a", FsNode.file (Except.ok U64_MAX)), ("b", FsNode.file (Except.ok 5))]⟩
    rfl rfl).2 (by simp [walkFiles, U64_MAX])

/-- Claim C2 (counterexample): an existing path whose read-only attribute
is set (attributes = 0x1) makes safe_delete fail with a permission error
having attempted neither the attribute clearing nor the removal — the
can_delete pre-check rejects read-only paths before the clearing block is
reached, so the claim that the attribute is cleared and the removal is
still attempted is false at this input. -/
theorem claim_C2_cex :
    safe_delete_windows "p" ⟨true, some 1, none⟩ false
      = ([], Except.error "Insufficient permissions to delete 'p'")
    ∧ OsAction.clearReadonly ∉ (safe_delete_windows "p" ⟨true, some 1, none⟩ false).1
    ∧ OsAction.removeFile ∉ (safe_delete_windows "p" ⟨true, some 1, none⟩ false).1 := by
  refine ⟨rfl, by decide, by decide⟩

/-- Claim C2 (amended): for every existing path whose blocking read-only
attribute is set, safe_delete fails with a permission error before the
attribute-clearing step, attempting neither the clearing nor the removal
(can_delete is false for such paths); a path that passes the pre-check has
the attribute clear, so its clearing block is a no-op, exactly the removal
call is attempted, and the removal call's own error is authoritative. -/
theorem claim_C2 (path : String) (p : WinPath) (d : Bool) (a : Nat) (e : String) :
    (p.ex = true → p.attrs = some a → a &&& 0x1 ≠ 0 →
      safe_delete_windows path p d
        = ([], Except.error ("Insufficient permissions to delete '" ++ path ++ "'")))
    ∧ (can_delete_windows p = true →
        (safe_delete_windows path p d).1
          = [if d then OsAction.removeDir else OsAction.removeFile])
    ∧ (can_delete_windows p = true → p.removeErr = some e →
        (safe_delete_windows path p d).2
          = Except.error ((if d then "Failed to delete directory '"
              else "Failed to delete file '") ++ path ++ "': " ++ e)) := by
  obtain ⟨ex, attrs, rm⟩ := p
  refine ⟨fun hex hat hro => ?_, fun hcan => ?_, fun hcan hrm => ?_⟩
  · cases hex
    cases hat
    have hmod : a % 2 = 1 := by
      have h2 := Nat.and_one_is_mod a
      omega
    have hc : can_delete_windows ⟨true, some a, rm⟩ = false := by
      simp [can_delete_windows, hmod]
    simp [safe_delete_windows, hc]
  · have hex : ex = true := by
      cases ex
      · simp [can_delete_windows] at hcan
      · rfl
    cases hex
    match attrs, hcan with
    | some a2, hcan =>
      have ha2 : a2 &&& 0x1 = 0 := by
        simp [can_delete_windows] at hcan
        have h2 := Nat.and_one_is_mod a2
        omega
      cases d <;> simp [safe_delete_windows, can_delete_windows, ha2, hcan]
    | none, hcan => simp [can_delete_windows] at hcan
  · have hex : ex = true := by
      cases ex
      · simp [can_delete_windows] at hcan
      · rfl
    cases hex
    cases hrm
    match attrs, hcan with
    | some a2, hcan =>
      have ha2 : a2 &&& 0x1 = 0 := by
        simp [can_delete_windows] at hcan
        have h2 := Nat.and_one_is_mod a2
        omega
      cases d <;> simp [safe_delete_windows, can_delete_windows, ha2, hcan]
    | none, hcan => simp [can_delete_windows] at hcan

/-- Claim C2 (witness): a read-only path is rejected with no OS action; a
writable locked path sees exactly the removal call — remove_file when it
is a file, remove_dir_all when it is a directory — and the removal call's
own error is reported in both cases. -/
theorem claim_C2_witness :
    safe_delete_windows "q" ⟨true, some 1, none⟩ true
      = ([], Except.error "Insufficient permissions to delete 'q'")
    ∧ (safe_delete_windows "q" ⟨true, some 0, some "locked"⟩ false).1 = [OsAction.removeFile]
    ∧ (safe_delete_windows "q" ⟨true, some 0, some "locked"⟩ false).2
        = Except.error "Failed to delete file 'q': locked"
    ∧ (safe_delete_windows "q" ⟨true, some 0, some "locked"⟩ true).1 = [OsAction.removeDir]
    ∧ (safe_delete_windows "q" ⟨true, some 0, some "locked"⟩ true).2
        = Except.error "Failed to delete directory 'q': locked" :=
  ⟨(claim_C2 "q" ⟨true, some 1, none⟩ true 1 "x").1 rfl rfl (by decide),
   (claim_C2 "q" ⟨true, some 0, some "locked"⟩ false 0 "locked").2.1 (by decide),
   (claim_C2 "q" ⟨true, some 0, some "locked"⟩ false 0 "locked").2.2 (by decide) rfl,
   (claim_C2 "q" ⟨true, some 0, some "locked"⟩ true 0 "locked").2.1 (by decide),
   (claim_C2 "q" ⟨true, some 0, some "locked"⟩ true 0 "locked").2.2 (by decide) rfl⟩

/-- Claim C4: safe_delete fails with the not-found error when the path
does not exist (re-checked at delete time); otherwise, when can_delete is
false — on POSIX exactly when the owner-write bit 0o200 is cleared in the
readable metadata — it fails with the permission error with an empty OS
action trace: the removal call is never attempted and the path is left
untouched. -/
theorem claim_C4 (path : String) (p : UnixPath) (d : Bool) (m : Nat) :
    (p.ex = false →
      safe_delete_unix path p d
        = ([], Except.error ("Path '" ++ path ++ "' does not exist")))
    ∧ (p.ex = true → can_delete_unix p = false →
        safe_delete_unix path p d
          = ([], Except.error ("Insufficient permissions to delete '" ++ path ++ "'")))
    ∧ (p.mode = some m → m &&& 0o200 = 0 → can_delete_unix p = false) := by
  refine ⟨fun hex => by simp [safe_delete_unix, hex], fun hex hcan => ?_, fun hm hbit => ?_⟩
  · simp [safe_delete_unix, hex, hcan]
  · cases hp : p.ex
    · simp [can_delete_unix, hp]
    · simp [can_delete_unix, hp, hm, hbit]

/-- Claim C4 (witness): a vanished path yields the not-found error; an
existing path with mode 0o444 (owner-write bit cleared) fails the
permission pre-check and yields the permission error with no OS action. -/
theorem claim_C4_witness :
    safe_delete_unix "w" ⟨false, none, none⟩ false
      = ([], Except.error "Path 'w' does not exist")
    ∧ can_delete_unix ⟨true, some 0o444, none⟩ = false
    ∧ safe_delete_unix "w" ⟨true, some 0o444, none⟩ false
        = ([], Except.error "Insufficient permissions to delete 'w'") :=
  ⟨(claim_C4 "w" ⟨false, none, none⟩ false 0).1 rfl,
   (claim_C4 "w" ⟨true, some 0o444, none⟩ false 0o444).2.2 rfl (by decide),
   (claim_C4 "w" ⟨true, some 0o444, none⟩ false 0o444).2.1 rfl
     ((claim_C4 "w" ⟨true, some 0o444, none⟩ false 0o444).2.2 rfl (by decide))⟩

/-- Claim C5: deletion of a batch is N independent, sequentially-reported
operations — a failing entry contributes its "path (reason)" line to the
failed list and the remaining entries are processed exactly as they would
have been without it — and in the concrete Scenario D (3 selected entries
of which "b" no longer exists) the result is 2 succeeded, 1 failed, with
the failed line mentioning non-existence. -/
theorem claim_C5 (fs : Fs) (e : DirectoryEntry) (es : List DirectoryEntry) (msg : String) :
    (entryOutcome fs e = Except.error msg →
      delete_entries_loop fs (e :: es)
        = ((delete_entries_loop fs es).1, failLine e msg :: (delete_entries_loop fs es).2))
    ∧ delete_entries
        [("a", ⟨true, some 0o644, none⟩), ("c", ⟨true, some 0o644, none⟩)]
        [DirectoryEntry.new "a" 100 false, DirectoryEntry.new "b" 200 false,
          DirectoryEntry.new "c" 300 false]
      = Except.ok (["a", "c"], ["b (Path 'b' does not exist)"])
    ∧ (∃ u v, u ++ "does not exist".data ++ v = "b (Path 'b' does not exist)".data) := by
  refine ⟨fun h => ?_, rfl, ⟨"b (Path 'b' ".data, ")".data, by decide⟩⟩
  rw [entryOutcome] at h
  simp only [delete_entries_loop, h]

/-- Claim C5 (witness): the independence conjunct applied at a concrete
batch whose first entry does not exist: its failure line is prepended and
the rest of the batch is processed unchanged. -/
theorem claim_C5_witness :
    delete_entries_loop [("c", ⟨true, some 0o644, none⟩)]
        [DirectoryEntry.new "b" 200 false, DirectoryEntry.new "c" 300 false]
      = (["c"], ["b (Path 'b' does not exist)"]) := by
  have h := (claim_C5 [("c", ⟨true, some 0o644, none⟩)] (DirectoryEntry.new "b" 200 false)
    [DirectoryEntry.new "c" 300 false] "Path 'b' does not exist").1 rfl
  rw [h]
  rfl

/-- Claim C10: delete_entries always returns Ok, and the returned pair
exactly partitions the input batch: the lengths of the deleted and failed
lists sum to the number of input entries, the deleted list is a
subsequence of the input paths in input order, and every failed line is
the "path (reason)" line of some input entry. -/
theorem claim_C10 (fs : Fs) (es : List DirectoryEntry) (s : String) :
    (∃ res, delete_entries fs es = Except.ok res)
    ∧ (delete_entries_loop fs es).1.length + (delete_entries_loop fs es).2.length = es.length
    ∧ List.Sublist (delete_entries_loop fs es).1 (es.map (fun e => e.path))
    ∧ (s ∈ (delete_entries_loop fs es).2 → ∃ e ∈ es, ∃ msg, s = failLine e msg) :=
  ⟨⟨delete_entries_loop fs es, rfl⟩,
   delete_loop_length es fs,
   delete_loop_deleted_sublist es fs,
   delete_loop_failed_from_entries es fs s⟩

/-- Claim C10 (witness): the partition at a concrete batch of one
existing and one vanished entry — one deleted path, one failed line that
comes from the vanished input entry. -/
theorem claim_C10_witness :
    (∃ res, delete_entries [("c", ⟨true, some 0o644, none⟩)]
        [DirectoryEntry.new "c" 300 false, DirectoryEntry.new "x" 1 false]
      = Except.ok res)
    ∧ (∃ e ∈ [DirectoryEntry.new "c" 300 false, DirectoryEntry.new "x" 1 false],
        ∃ msg, "x (Path 'x' does not exist)" = failLine e msg) :=
  ⟨(claim_C10 [("c", ⟨true, some 0o644, none⟩)]
      [DirectoryEntry.new "c" 300 false, DirectoryEntry.new "x" 1 false]
      "x (Path 'x' does not exist)").1,
   (claim_C10 [("c", ⟨true, some 0o644, none⟩)]
      [DirectoryEntry.new "c" 300 false, DirectoryEntry.new "x" 1 false]
      "x (Path 'x' does not exist)").2.2.2 (by decide)⟩

end DiskCleaner
